import Mathlib

/-!
Verification of the natural-language specification of
`grr/endtoend_tests/base.py` against a shallow embedding of that file.

The embedding translates the Python source directly.  External collaborators
(the AFF4 object store, the regex module, the client index, configuration,
wall-clock time) are passed in as function parameters, matching the
collaborator interfaces the spec lists in its section 6.  Machine strings
holding raw bytes (Python 2 `str`) are modelled as `List Nat`.
-/

/-- AFF4 URN join: `urn.Add(component)` appends a slash-delimited component. -/
def urnAdd (u s : String) : String := u ++ "/" ++ s

/-- Helper for `pyFind`: index of the first occurrence of `c`, scanning left
to right, mirroring Python `str.find`. -/
def pyFindAux (c : Char) : List Char → Nat → Option Nat
  | [], _ => none
  | x :: xs, i => if x = c then some i else pyFindAux c xs (i + 1)

/-- Python `s.find(c)`: lowest index of `c` in `s`, or `-1` when absent. -/
def pyFind (s : String) (c : Char) : Int :=
  match pyFindAux c s.toList 0 with
  | some i => (i : Int)
  | none => -1

/-- Python slice `s[:n]` for a nonnegative bound. -/
def pySlice (s : String) (n : Nat) : String := (s.toList.take n).asString

/-- ELF magic bytes, the ASCII text `"ELF"`. -/
def elfMagic : List Nat := [0x45, 0x4c, 0x46]

/-- PE magic bytes, the ASCII text `"MZ"`. -/
def peMagic : List Nat := [0x4d, 0x5a]

/-- Three Mach-O magic constants from the source: `"cafebabe"`, `"cefaedfe"`,
`"cffaedfe"`, each hex-decoded to four bytes. -/
def macMagicValues : List (List Nat) :=
  [[0xca, 0xfe, 0xba, 0xbe], [0xce, 0xfa, 0xed, 0xfe], [0xcf, 0xfa, 0xed, 0xfe]]

/-- `ClientTestBase.CheckELFMagic`: read 10 bytes, compare `data[1:4]` with
`"ELF"`. -/
def checkELFMagic (content : List Nat) : Bool :=
  let data := content.take 10
  decide (((data.drop 1).take 3) = elfMagic)

/-- `ClientTestBase.CheckPEMagic`: read 10 bytes, compare `data[:2]` with
`"MZ"`. -/
def checkPEMagic (content : List Nat) : Bool :=
  let data := content.take 10
  decide (data.take 2 = peMagic)

/-- `ClientTestBase.CheckMacMagic`: read 10 bytes, check `data[:4]` is one of
the three Mach-O magic constants. -/
def checkMacMagic (content : List Nat) : Bool :=
  let data := content.take 10
  decide (data.take 4 ∈ macMagicValues)

/-- C8: `CheckELFMagic` passes exactly when bytes 1-3 of the artifact's
content equal the ASCII text "ELF"; `CheckPEMagic` passes exactly when bytes
0-1 equal "MZ"; `CheckMacMagic` passes exactly when the first 4 bytes equal
one of three fixed 4-byte magic constants. -/
theorem claim_C8_magic_checks (content : List Nat) :
    (checkELFMagic content = true ↔ (content.drop 1).take 3 = elfMagic)
    ∧ (checkPEMagic content = true ↔ content.take 2 = peMagic)
    ∧ (checkMacMagic content = true ↔
        (content.take 4 = [0xca, 0xfe, 0xba, 0xbe]
         ∨ content.take 4 = [0xce, 0xfa, 0xed, 0xfe]
         ∨ content.take 4 = [0xcf, 0xfa, 0xed, 0xfe])) := by
  refine ⟨?_, ?_, ?_⟩
  · simp only [checkELFMagic, decide_eq_true_eq]
    rw [List.drop_take, List.take_take]
    norm_num
  · simp only [checkPEMagic, decide_eq_true_eq, List.take_take]
    norm_num
  · simp only [checkMacMagic, decide_eq_true_eq, List.take_take, macMagicValues]
    norm_num

/-- Result of `CheckCollectionNotEmptyWithRetry`: either the collection
contents together with the number of one-second sleeps performed before
returning, or the `ErrorEmptyCollection` message with the number of sleeps
performed before raising. -/
inductive PollResult (ε : Type) where
  | ok (entries : List ε) (elapsed : Nat)
  | errorEmptyCollection (msg : String) (elapsed : Nat)
deriving DecidableEq

/-- Retry loop of `CheckCollectionNotEmptyWithRetry`: at most `fuel` rounds
remain; each round sleeps one second (advancing the elapsed-seconds clock
`t`), then re-reads the collection (`contents` gives the store contents as a
function of elapsed seconds) and returns it if non-empty. -/
def pollLoop {ε : Type} (contents : Nat → List ε) : Nat → Nat → Option (List ε × Nat)
  | 0, _ => none
  | fuel + 1, t =>
    let collList := contents (t + 1)
    if collList.isEmpty then pollLoop contents fuel (t + 1) else some (collList, t + 1)

/-- `ClientTestBase.CheckCollectionNotEmptyWithRetry`: open the collection,
return its contents immediately when non-empty; otherwise poll up to `sla`
times, sleeping one second per round, and raise `ErrorEmptyCollection` when
the SLA is exhausted. -/
def CheckCollectionNotEmptyWithRetry {ε : Type} (contents : Nat → List ε)
    (collectionUrn : String) (sla : Nat) : PollResult ε :=
  let collList := contents 0
  if collList.isEmpty then
    match pollLoop contents sla 0 with
    | some (l, t) => PollResult.ok l t
    | none =>
      PollResult.errorEmptyCollection
        ("No values in " ++ collectionUrn ++ " after SLA: " ++ toString sla ++ " seconds") sla
  else PollResult.ok collList 0

/-- Default value of the `RESULTS_SLA_SECONDS` class attribute. -/
def RESULTS_SLA_SECONDS : Nat := 10

theorem pollLoop_eq_none {ε : Type} (contents : Nat → List ε) :
    ∀ fuel t, (∀ j, t < j → j ≤ t + fuel → contents j = []) →
      pollLoop contents fuel t = none := by
  intro fuel
  induction fuel with
  | zero => intro t _; rfl
  | succ n ih =>
    intro t h
    have h1 : contents (t + 1) = [] := h (t + 1) (by omega) (by omega)
    simp only [pollLoop, h1, List.isEmpty_nil, if_true]
    exact ih (t + 1) (fun j hj1 hj2 => h j (by omega) (by omega))

theorem pollLoop_finds {ε : Type} (contents : Nat → List ε) :
    ∀ fuel t k, t < k → k ≤ t + fuel → contents k ≠ [] →
      (∀ j, t < j → j < k → contents j = []) →
      pollLoop contents fuel t = some (contents k, k) := by
  intro fuel
  induction fuel with
  | zero => intro t k h1 h2 _ _; omega
  | succ n ih =>
    intro t k h1 h2 hk hmin
    by_cases hk1 : k = t + 1
    · subst hk1
      simp [pollLoop, List.isEmpty_iff, hk]
    · have he : contents (t + 1) = [] := hmin (t + 1) (by omega) (by omega)
      simp only [pollLoop, he, List.isEmpty_nil, if_true]
      exact ih (t + 1) k (by omega) (by omega) hk (fun j hj1 hj2 => hmin j (by omega) hj2)

/-- C3: for a collection empty when opened, `CheckCollectionNotEmptyWithRetry`
loops up to `sla` rounds, each sleeping exactly one second then re-reading the
collection, and returns the re-read contents at the first non-empty round `k`
after `k` seconds; if the collection is never populated within the SLA it
raises `ErrorEmptyCollection` after `sla` seconds with a message naming the
collection and the SLA. -/
theorem claim_C3_bounded_polling {ε : Type} (contents : Nat → List ε)
    (collectionUrn : String) (sla : Nat) (h0 : contents 0 = []) :
    (∀ k, 1 ≤ k → k ≤ sla → contents k ≠ [] →
        (∀ j, 1 ≤ j → j < k → contents j = []) →
        CheckCollectionNotEmptyWithRetry contents collectionUrn sla =
          PollResult.ok (contents k) k)
    ∧ ((∀ k, k ≤ sla → contents k = []) →
        CheckCollectionNotEmptyWithRetry contents collectionUrn sla =
          PollResult.errorEmptyCollection
            ("No values in " ++ collectionUrn ++ " after SLA: " ++ toString sla ++ " seconds")
            sla) := by
  constructor
  · intro k hk1 hk2 hk3 hmin
    have hfind := pollLoop_finds contents sla 0 k (by omega) (by omega) hk3
      (fun j hj1 hj2 => hmin j (by omega) hj2)
    simp [CheckCollectionNotEmptyWithRetry, h0, hfind]
  · intro hall
    have hnone := pollLoop_eq_none contents sla 0 (fun j hj1 hj2 => hall j (by omega))
    simp [CheckCollectionNotEmptyWithRetry, h0, hnone]
/-- Concrete collection for the C3 witness: empty until second 2, then
populated. -/
def pollContentsC3 : Nat → List Nat := fun n => if 2 ≤ n then [7] else []

/-- Witness for C3 at a concrete input: the collection becomes non-empty at
round 2 of a 5-second SLA, and the call returns its contents after 2 sleeps. -/
theorem claim_C3_bounded_polling_witness :
    pollContentsC3 0 = []
    ∧ CheckCollectionNotEmptyWithRetry pollContentsC3 "aff4:/foo" 5 =
        PollResult.ok (pollContentsC3 2) 2 := by
  refine ⟨rfl, ?_⟩
  exact (claim_C3_bounded_polling pollContentsC3 "aff4:/foo" 5 rfl).1 2 (by decide) (by decide)
    (by decide) (fun j hj1 hj2 => by
      have hj : j = 1 := by omega
      subst hj
      rfl)

/-- C4: for a collection that already has entries at call time,
`CheckCollectionNotEmptyWithRetry` returns the contents immediately with no
sleep at all. -/
theorem claim_C4_fast_path {ε : Type} (contents : Nat → List ε)
    (collectionUrn : String) (sla : Nat) (h0 : contents 0 ≠ []) :
    CheckCollectionNotEmptyWithRetry contents collectionUrn sla =
      PollResult.ok (contents 0) 0 := by
  simp [CheckCollectionNotEmptyWithRetry, List.isEmpty_iff, h0]

/-- Concrete collection for the C4 witness: already populated at call time. -/
def pollContentsC4 : Nat → List Nat := fun _ => [3]

/-- Witness for C4 at a concrete input. -/
theorem claim_C4_fast_path_witness :
    pollContentsC4 0 ≠ []
    ∧ CheckCollectionNotEmptyWithRetry pollContentsC4 "aff4:/bar" RESULTS_SLA_SECONDS =
        PollResult.ok (pollContentsC4 0) 0 :=
  ⟨by decide, claim_C4_fast_path pollContentsC4 "aff4:/bar" RESULTS_SLA_SECONDS (by decide)⟩

/-- One batched `MultiListChildren` round of `RecursiveListChildren`: the
union of the children of every urn in the frontier.  The `children`
collaborator gives the store's immediate children of each urn. -/
def childrenStep {α : Type} [DecidableEq α] (children : α → Finset α) (s : Finset α) : Finset α :=
  s.biUnion children

/-- Loop of `RecursiveListChildren`, with an explicit fuel bound standing in
for the Python `while` loop (which terminates only on finite acyclic trees).
Returns `none` when the fuel runs out before the frontier empties, otherwise
the accumulated `all_urns` set paired with the number of batched
`MultiListChildren` calls made (one per loop iteration). -/
def RecursiveListChildrenAux {α : Type} [DecidableEq α] (children : α → Finset α) :
    Nat → Finset α → Finset α → Option (Finset α × Nat)
  | 0, allUrns, actUrns => if actUrns = ∅ then some (allUrns, 0) else none
  | fuel + 1, allUrns, actUrns =>
    if actUrns = ∅ then some (allUrns, 0)
    else
      let nextUrns := childrenStep children actUrns
      match RecursiveListChildrenAux children fuel (allUrns ∪ nextUrns) nextUrns with
      | some (s, calls) => some (s, calls + 1)
      | none => none

/-- `RecursiveListChildren(prefix)`: start from the frontier containing only
the prefix, with an empty accumulator. -/
def RecursiveListChildren {α : Type} [DecidableEq α] (children : α → Finset α)
    (fuel : Nat) (pre : α) : Option (Finset α × Nat) :=
  RecursiveListChildrenAux children fuel ∅ {pre}

theorem childrenStep_iter_empty {α : Type} [DecidableEq α] (children : α → Finset α) :
    ∀ n : Nat, (childrenStep children)^[n] (∅ : Finset α) = ∅ := by
  intro n
  induction n with
  | zero => rfl
  | succ k ih =>
    rw [Function.iterate_succ_apply]
    simpa [childrenStep] using ih

theorem childrenStep_iterate_empty_mono {α : Type} [DecidableEq α] (children : α → Finset α)
    (s : Finset α) (d j : Nat) (hd : (childrenStep children)^[d] s = ∅) (hdj : d ≤ j) :
    (childrenStep children)^[j] s = ∅ := by
  obtain ⟨t, rfl⟩ : ∃ t, j = t + d := ⟨j - d, by omega⟩
  rw [Function.iterate_add_apply, hd, childrenStep_iter_empty]

theorem recursiveListChildrenAux_spec {α : Type} [DecidableEq α] (children : α → Finset α) :
    ∀ fuel m (allUrns actUrns : Finset α), (childrenStep children)^[m] actUrns = ∅ → m ≤ fuel →
      ∃ s calls, RecursiveListChildrenAux children fuel allUrns actUrns = some (s, calls)
        ∧ calls ≤ m
        ∧ ∀ u, u ∈ s ↔
            (u ∈ allUrns ∨ ∃ i, 1 ≤ i ∧ u ∈ (childrenStep children)^[i] actUrns) := by
  intro fuel
  induction fuel with
  | zero =>
    intro m allUrns actUrns hm hle
    have hm0 : m = 0 := Nat.le_zero.mp hle
    subst hm0
    simp only [Function.iterate_zero, id_eq] at hm
    subst hm
    refine ⟨allUrns, 0, by simp [RecursiveListChildrenAux], Nat.le_refl 0, fun u => ?_⟩
    simp [childrenStep_iter_empty children]
  | succ n ih =>
    intro m allUrns actUrns hm hle
    by_cases hact : actUrns = ∅
    · subst hact
      refine ⟨allUrns, 0, by simp [RecursiveListChildrenAux], Nat.zero_le m, fun u => ?_⟩
      simp [childrenStep_iter_empty children]
    · have hm1 : m ≠ 0 := by
        intro h0
        subst h0
        simp only [Function.iterate_zero, id_eq] at hm
        exact hact hm
      obtain ⟨m', rfl⟩ : ∃ m', m = m' + 1 := ⟨m - 1, by omega⟩
      have hstep : (childrenStep children)^[m'] (childrenStep children actUrns) = ∅ := by
        rw [← Function.iterate_succ_apply]
        exact hm
      obtain ⟨s, calls, heq, hcalls, hmem⟩ :=
        ih m' (allUrns ∪ childrenStep children actUrns) (childrenStep children actUrns)
          hstep (by omega)
      refine ⟨s, calls + 1, ?_, by omega, fun u => ?_⟩
      · simp only [RecursiveListChildrenAux, if_neg hact]
        rw [heq]
      · rw [hmem u]
        constructor
        · rintro (h | ⟨i, hi, hu⟩)
          · rcases Finset.mem_union.mp h with h' | h'
            · exact Or.inl h'
            · exact Or.inr ⟨1, Nat.le_refl 1, by simpa [Function.iterate_one] using h'⟩
          · exact Or.inr ⟨i + 1, by omega, by rw [Function.iterate_succ_apply]; exact hu⟩
        · rintro (h | ⟨i, hi, hu⟩)
          · exact Or.inl (Finset.mem_union_left _ h)
          · obtain ⟨i', rfl⟩ : ∃ i', i = i' + 1 := ⟨i - 1, by omega⟩
            rw [Function.iterate_succ_apply] at hu
            by_cases hi0 : i' = 0
            · subst hi0
              simp only [Function.iterate_zero, id_eq] at hu
              exact Or.inl (Finset.mem_union_right _ hu)
            · exact Or.inr ⟨i', by omega, hu⟩

/-- Chains of exactly `n` child-of steps in the store's namespace tree. -/
def chainN {α : Type} (children : α → Finset α) : Nat → α → α → Prop
  | 0, a, b => a = b
  | n + 1, a, b => ∃ c ∈ children a, chainN children n c b

theorem mem_childrenStep_iterate {α : Type} [DecidableEq α] (children : α → Finset α) :
    ∀ (n : Nat) (s : Finset α) (u : α),
      u ∈ (childrenStep children)^[n] s ↔ ∃ a ∈ s, chainN children n a u := by
  intro n
  induction n with
  | zero =>
    intro s u
    simp [chainN]
  | succ k ih =>
    intro s u
    rw [Function.iterate_succ_apply, ih]
    simp only [chainN]
    constructor
    · rintro ⟨c, hc, hu⟩
      obtain ⟨a, ha, hca⟩ := Finset.mem_biUnion.mp hc
      exact ⟨a, ha, c, hca, hu⟩
    · rintro ⟨a, ha, c, hca, hu⟩
      exact ⟨c, Finset.mem_biUnion.mpr ⟨a, ha, hca⟩, hu⟩

theorem chainN_trans {α : Type} (children : α → Finset α) :
    ∀ m (a b c : α), chainN children m a b → ∀ n, chainN children n b c →
      chainN children (m + n) a c := by
  intro m
  induction m with
  | zero =>
    intro a b c hab n hbc
    have hab' : a = b := hab
    subst hab'
    rw [Nat.zero_add]
    exact hbc
  | succ k ih =>
    intro a b c hab n hbc
    obtain ⟨d, hd, hdb⟩ := hab
    have harith : k + 1 + n = (k + n) + 1 := by omega
    rw [harith]
    exact ⟨d, hd, ih d b c hdb n hbc⟩

theorem chainN_transGen {α : Type} (children : α → Finset α) :
    ∀ (n : Nat) (a u : α), chainN children (n + 1) a u →
      Relation.TransGen (fun x y => y ∈ children x) a u := by
  intro n
  induction n with
  | zero =>
    intro a u h
    obtain ⟨c, hc, hcu⟩ := h
    have hcu' : c = u := hcu
    subst hcu'
    exact Relation.TransGen.single hc
  | succ k ih =>
    intro a u h
    obtain ⟨c, hc, hcu⟩ := h
    exact Relation.TransGen.head hc (ih c u hcu)

theorem transGen_iff_chainN {α : Type} (children : α → Finset α) (a u : α) :
    Relation.TransGen (fun x y => y ∈ children x) a u
      ↔ ∃ n, 1 ≤ n ∧ chainN children n a u := by
  constructor
  · intro h
    induction h with
    | single hstep => exact ⟨1, Nat.le_refl 1, ⟨_, hstep, rfl⟩⟩
    | tail _ hstep ih =>
      obtain ⟨n, hn, hchain⟩ := ih
      exact ⟨n + 1, by omega, chainN_trans children n _ _ _ hchain 1 ⟨_, hstep, rfl⟩⟩
  · rintro ⟨n, hn, hchain⟩
    obtain ⟨n', rfl⟩ : ∃ n', n = n' + 1 := ⟨n - 1, by omega⟩
    exact chainN_transGen children n' a u hchain

theorem chainN_cycle_pump {α : Type} (children : α → Finset α) (n : Nat) (a : α)
    (h : chainN children n a a) : ∀ k, chainN children (k * n) a a := by
  intro k
  induction k with
  | zero =>
    rw [Nat.zero_mul]
    exact rfl
  | succ k ih =>
    have harith : (k + 1) * n = k * n + n := by ring
    rw [harith]
    exact chainN_trans children (k * n) a a a ih n h

/-- C6: for every finite acyclic tree reachable from a prefix (expressed as a
depth `d` at which the iterated frontier is empty), `RecursiveListChildren`
returns exactly the set of proper descendants of the prefix (transitive
closure of the child relation), never containing the prefix itself, making at
most one batched `MultiListChildren` call per level (at most `d` calls), and
returning the empty set when the prefix has no children. -/
theorem claim_C6_tree_enumeration {α : Type} [DecidableEq α] (children : α → Finset α)
    (pre : α) (d fuel : Nat)
    (hd : (childrenStep children)^[d] ({pre} : Finset α) = ∅) (hfuel : d ≤ fuel) :
    ∃ s calls, RecursiveListChildren children fuel pre = some (s, calls)
      ∧ (∀ u, u ∈ s ↔ Relation.TransGen (fun x y => y ∈ children x) pre u)
      ∧ pre ∉ s
      ∧ calls ≤ d
      ∧ (children pre = ∅ → s = ∅) := by
  obtain ⟨s, calls, heq, hcalls, hmem⟩ :=
    recursiveListChildrenAux_spec children fuel d ∅ {pre} hd hfuel
  have hchar : ∀ u, u ∈ s ↔ Relation.TransGen (fun x y => y ∈ children x) pre u := by
    intro u
    rw [hmem u, transGen_iff_chainN]
    simp only [Finset.not_mem_empty, false_or]
    constructor
    · rintro ⟨i, hi, hu⟩
      rw [mem_childrenStep_iterate] at hu
      obtain ⟨a, ha, hchain⟩ := hu
      have ha' : a = pre := Finset.mem_singleton.mp ha
      subst ha'
      exact ⟨i, hi, hchain⟩
    · rintro ⟨n, hn, hchain⟩
      exact ⟨n, hn, (mem_childrenStep_iterate children n {pre} u).mpr
        ⟨pre, Finset.mem_singleton_self pre, hchain⟩⟩
  refine ⟨s, calls, heq, hchar, ?_, hcalls, ?_⟩
  · intro hpre
    rw [hchar pre, transGen_iff_chainN] at hpre
    obtain ⟨n, hn, hchain⟩ := hpre
    have hall : chainN children ((d + 1) * n) pre pre := chainN_cycle_pump children n pre hchain (d + 1)
    have hge : d ≤ (d + 1) * n := by
      have h2 : (d + 1) * 1 ≤ (d + 1) * n := Nat.mul_le_mul_left (d + 1) hn
      omega
    have hempty : (childrenStep children)^[(d + 1) * n] ({pre} : Finset α) = ∅ :=
      childrenStep_iterate_empty_mono children {pre} d _ hd hge
    have hin : pre ∈ (childrenStep children)^[(d + 1) * n] ({pre} : Finset α) :=
      (mem_childrenStep_iterate children _ {pre} pre).mpr
        ⟨pre, Finset.mem_singleton_self pre, hall⟩
    rw [hempty] at hin
    exact absurd hin (Finset.not_mem_empty pre)
  · intro hnone
    apply Finset.eq_empty_iff_forall_not_mem.mpr
    intro u hu
    rw [hchar u, transGen_iff_chainN] at hu
    obtain ⟨n, hn, hchain⟩ := hu
    obtain ⟨n', rfl⟩ : ∃ n', n = n' + 1 := ⟨n - 1, by omega⟩
    obtain ⟨c, hc, _⟩ := hchain
    rw [hnone] at hc
    exact absurd hc (Finset.not_mem_empty c)

/-- Concrete tree for the C6 witness: root 0 with children 1 and 2, node 1
with child 3; the frontier empties at depth 3. -/
def childrenC6 : Nat → Finset Nat := fun n =>
  if n = 0 then {1, 2} else if n = 1 then {3} else ∅

/-- Witness for C6 at a concrete input. -/
theorem claim_C6_tree_enumeration_witness :
    (childrenStep childrenC6)^[3] ({0} : Finset Nat) = ∅ ∧ (3 : Nat) ≤ 3
    ∧ ∃ s calls, RecursiveListChildren childrenC6 3 0 = some (s, calls)
      ∧ (∀ u, u ∈ s ↔ Relation.TransGen (fun x y => y ∈ childrenC6 x) 0 u)
      ∧ 0 ∉ s
      ∧ calls ≤ 3
      ∧ (childrenC6 0 = ∅ → s = ∅) :=
  ⟨by decide, by decide, claim_C6_tree_enumeration childrenC6 0 3 3 (by decide) (by decide)⟩

/-- Failure of the modelled store open.  Modelled from the spec:
`Store.Open(path, expectedType?) -> Artifact | NotFoundError |
TypeMismatchError` (`grr.lib.aff4` is a collaborator outside the analysed
source); both failure cases surface to the caller as
`aff4.InstantiationError`. -/
inductive OpenErr where
  | notFound
  | typeMismatch
deriving DecidableEq

/-- Whether a modelled store open returned normally. -/
def openOk (r : Except OpenErr Unit) : Bool :=
  match r with
  | Except.ok _ => true
  | Except.error _ => false

/-- `ClientTestBase.VerifyEmpty`: open each urn with
`aff4_type=aff4.AFF4Volume` inside one `try` block; the call returns normally
(`true`) when every open succeeds, and raises `TestStateUncleanError`
(`false`) as soon as some open raises `InstantiationError`.  `openAsVolume`
is the store open collaborator observed after the deletions. -/
def VerifyEmptyPasses (openAsVolume : String → Except OpenErr Unit)
    (urns : Finset String) : Bool :=
  decide (∀ u ∈ urns, openOk (openAsVolume u) = true)

/-- Result of `_CleanState`: the set of urns passed to `DeleteUrn`, and
whether the call completed without raising `TestStateUncleanError`. -/
structure CleanResult where
  deleted : Finset String
  ok : Bool
deriving DecidableEq

/-- `ClientTestBase._CleanState`: record `client_id.Add(test_output_path)`
when `test_output_path` is set, delete every recorded urn, then run
`VerifyEmpty` over the recorded set when it is non-empty. -/
def CleanState (openAsVolume : String → Except OpenErr Unit) (clientId : String)
    (testOutputPath : Option String) (deleteUrns : Finset String) : CleanResult :=
  let del := match testOutputPath with
    | some p => insert (urnAdd clientId p) deleteUrns
    | none => deleteUrns
  { deleted := del
    ok := if del = ∅ then true else VerifyEmptyPasses openAsVolume del }

/-- Store state in which every recorded path was successfully deleted: every
typed open fails with a lookup error. -/
def openAllDeleted : String → Except OpenErr Unit := fun _ => Except.error OpenErr.notFound

/-- Store state in which every recorded path still opens successfully as a
container. -/
def openStillPresent : String → Except OpenErr Unit := fun _ => Except.ok ()

/-- C1 (divergence shown at the failing input): with the store open modelled
from the spec, `_CleanState` raises `TestStateUncleanError` exactly when some
recorded path fails to open — the reverse of the claimed direction.  With
every recorded path failing to open (deletion succeeded) the call fails, and
with every recorded path still opening successfully as a container it
succeeds. -/
theorem claim_C1_cleanup_direction :
    (CleanState openAllDeleted "aff4:/C.1000000000000000" none
        {"aff4:/C.1000000000000000/fs/os/proc/netstat"}).ok = false
    ∧ (CleanState openStillPresent "aff4:/C.1000000000000000" none
        {"aff4:/C.1000000000000000/fs/os/proc/netstat"}).ok = true :=
  ⟨by decide, by decide⟩

/-- Python type of an opened AFF4 object: `volume` is exactly
`aff4.AFF4Volume`, which is what an urn with no data written opens as;
anything else is a concrete subclass such as `aff4_grr.VFSFile`. -/
inductive ATy where
  | volume
  | vfsFile
  | other (name : String)
deriving DecidableEq

/-- Outcome of a check routine: passed, or a unittest failure raised with a
message. -/
inductive CheckOutcome where
  | passed
  | failed (msg : String)
deriving DecidableEq

/-- Observable result of a `CheckFlow` run: whether the wildcard branch (and
hence `RecursiveListChildren`) ran, the urn passed to `aff4.FACTORY.Open`
(`none` when an assertion aborted the check before any open), the outcome,
and the `delete_urns` set afterwards. -/
structure VFSCheckResult where
  enumerated : Bool
  opened : Option String
  outcome : CheckOutcome
  deleteUrns : Finset String
deriving DecidableEq

/-- Tail of `TestVFSPathExists.CheckFlow`: open `urn.Add(file_to_find)`; fail
when it opened as exactly `aff4.AFF4Volume` (nothing written), otherwise
assert its type equals `result_type`. -/
def vfsOpenAndCheck (typeOf : String → ATy) (resultType : ATy) (urn fileToFind : String)
    (del : Finset String) (enum : Bool) : VFSCheckResult :=
  let target := urnAdd urn fileToFind
  let fd := typeOf target
  { enumerated := enum
    opened := some target
    outcome :=
      if fd = ATy.volume then
        CheckOutcome.failed
          "No results were written to the data store. Maybe the GRR client is not running with root privileges?"
      else if fd = resultType then CheckOutcome.passed
      else CheckOutcome.failed "type of opened object does not equal result_type"
    deleteUrns := del }

/-- Wildcard-branch loop of `TestVFSPathExists.CheckFlow`: iterate the
enumerated urns (in the iteration order of the Python set), tracking the loop
variable; on the first regex match add `urn.Add(file_to_find)` and `urn` to
`delete_urns` and break.  The returned option is the loop variable after the
loop: `none` only when the iterated collection was empty. -/
def scanVfsUrns (reSearch : String → String → Bool) (pattern fileToFind : String) :
    List String → Option String → Finset String → Option String × Finset String
  | [], urn, del => (urn, del)
  | u :: rest, _, del =>
    if reSearch pattern u then (some u, insert u (insert (urnAdd u fileToFind) del))
    else scanVfsUrns reSearch pattern fileToFind rest (some u) del

/-- `TestVFSPathExists.CheckFlow`.  Collaborators: `typeOf` gives the Python
type an urn opens as, `enumOrder` gives the `RecursiveListChildren` result in
set-iteration order, `reSearch pat s` is `re.search(pat, s)` as a Boolean. -/
def TestVFSPathExistsCheckFlow (typeOf : String → ATy) (enumOrder : String → List String)
    (reSearch : String → String → Bool) (resultType : ATy)
    (clientId outputPath fileToFind : String) (deleteUrns : Finset String) : VFSCheckResult :=
  let pos := pyFind outputPath '*'
  if 0 < pos then
    let baseUrn := urnAdd clientId (pySlice outputPath pos.toNat)
    let scan := scanVfsUrns reSearch (outputPath ++ "$") fileToFind
      (enumOrder baseUrn) none deleteUrns
    match scan.1 with
    | none =>
      { enumerated := true, opened := none
        outcome := CheckOutcome.failed "Could not locate Directory."
        deleteUrns := scan.2 }
    | some urn => vfsOpenAndCheck typeOf resultType urn fileToFind scan.2 true
  else
    vfsOpenAndCheck typeOf resultType (urnAdd clientId outputPath) fileToFind deleteUrns false

/-- `TestVFSPathExists.tearDown`: when `delete_urns` is empty, record
`client_id.Add(output_path).Add(file_to_find)`, then run the inherited
`tearDown`, i.e. `_CleanState`.  `TestVFSPathExists` leaves the inherited
`test_output_path = None`, so `_CleanState` records nothing further. -/
def TestVFSPathExistsTearDown (openAsVolume : String → Except OpenErr Unit)
    (clientId outputPath fileToFind : String) (deleteUrns : Finset String) : CleanResult :=
  let del := if deleteUrns = ∅
    then insert (urnAdd (urnAdd clientId outputPath) fileToFind) deleteUrns
    else deleteUrns
  CleanState openAsVolume clientId none del

/-- `VFSPathContentExists.CheckFile`: read 10 bytes and assert some value was
read (Python truthiness of the data string). -/
def vfsCheckFileBase (content : String → List Nat) (urn : String) : CheckOutcome :=
  if ((content urn).take 10).isEmpty then CheckOutcome.failed "no data read"
  else CheckOutcome.passed

/-- Wildcard-branch loop of `VFSPathContentExists.CheckFlow`: on the first
regex match, record the urn for deletion and return the result of
`CheckFile` on the opened urn; `none` when no enumerated urn matches. -/
def scanContentUrns (reSearch : String → String → Bool) (pattern : String)
    (content : String → List Nat) : List String → Finset String → Option VFSCheckResult
  | [], _ => none
  | u :: rest, del =>
    if reSearch pattern u then
      some { enumerated := true, opened := some u
             outcome := vfsCheckFileBase content u
             deleteUrns := insert u del }
    else scanContentUrns reSearch pattern content rest del

/-- `VFSPathContentExists.CheckFlow`: wildcard paths go through
`RecursiveListChildren` plus a regex match; literal paths are opened directly
and checked unless they opened as exactly `aff4.AFF4Volume` (not found). -/
def VFSPathContentExistsCheckFlow (typeOf : String → ATy) (enumOrder : String → List String)
    (reSearch : String → String → Bool) (content : String → List Nat)
    (clientId testOutputPath : String) (deleteUrns : Finset String) : VFSCheckResult :=
  let pos := pyFind testOutputPath '*'
  if 0 < pos then
    let pre := urnAdd clientId (pySlice testOutputPath pos.toNat)
    match scanContentUrns reSearch (testOutputPath ++ "$") content
        (enumOrder pre) deleteUrns with
    | some r => r
    | none =>
      { enumerated := true, opened := none
        outcome := CheckOutcome.failed
          ("Output file " ++ testOutputPath ++
            " not found. Maybe the GRR client is not running with root privileges?")
        deleteUrns := deleteUrns }
  else
    let urn := urnAdd clientId testOutputPath
    let fd := typeOf urn
    { enumerated := false
      opened := some urn
      outcome :=
        if fd ≠ ATy.volume then vfsCheckFileBase content urn
        else CheckOutcome.failed ("Output file " ++ urn ++ " not found.")
      deleteUrns := deleteUrns }

/-- Store for scenario A: the task wrote a `VFSFile` at
`.../fs/os/proc/netstat`; everything else opens as a bare volume. -/
def typeOfC2 : String → ATy := fun s =>
  if s = "aff4:/C.1000000000000000/fs/os/proc/netstat" then ATy.vfsFile else ATy.volume

/-- Enumeration collaborator for scenario A (never consulted: no wildcard). -/
def enumOrderC2 : String → List String := fun _ => []

/-- Regex collaborator for scenario A (never consulted: no wildcard). -/
def reSearchC2 : String → String → Bool := fun _ _ => false

/-- C2 counterexample: in scenario A (output path `fs/os/proc`, no wildcard,
file `netstat` written under it), the claim says the check records both
`fs/os/proc` and `fs/os/proc/netstat` in the DeleteSet; in fact the check
records nothing, `tearDown` records only the netstat path, and `fs/os/proc`
is never recorded for deletion. -/
theorem claim_C2_counterexample :
    (TestVFSPathExistsCheckFlow typeOfC2 enumOrderC2 reSearchC2 ATy.vfsFile
        "aff4:/C.1000000000000000" "fs/os/proc" "netstat" ∅).deleteUrns = ∅
    ∧ (TestVFSPathExistsTearDown openAllDeleted
        "aff4:/C.1000000000000000" "fs/os/proc" "netstat" ∅).deleted =
        {"aff4:/C.1000000000000000/fs/os/proc/netstat"}
    ∧ "aff4:/C.1000000000000000/fs/os/proc" ∉
        (TestVFSPathExistsTearDown openAllDeleted
          "aff4:/C.1000000000000000" "fs/os/proc" "netstat" ∅).deleted :=
  ⟨by decide, by decide, by decide⟩

/-- C2 amended: for a non-wildcard output path whose `file_to_find` child
opens as the expected non-container `result_type`, `CheckFlow` opens
`client_id.Add(output_path).Add(file_to_find)`, passes, and records nothing
in the DeleteSet; `tearDown`, finding the DeleteSet empty, records only that
child path, so teardown deletes and verifies exactly that one path and the
output directory itself is never recorded. -/
theorem claim_C2_scenario_A (typeOf : String → ATy) (enumOrder : String → List String)
    (reSearch : String → String → Bool) (openAsVolume : String → Except OpenErr Unit)
    (clientId outputPath fileToFind : String)
    (hpos : pyFind outputPath '*' ≤ 0)
    (htype : typeOf (urnAdd (urnAdd clientId outputPath) fileToFind) = ATy.vfsFile) :
    TestVFSPathExistsCheckFlow typeOf enumOrder reSearch ATy.vfsFile
        clientId outputPath fileToFind ∅ =
      { enumerated := false
        opened := some (urnAdd (urnAdd clientId outputPath) fileToFind)
        outcome := CheckOutcome.passed
        deleteUrns := ∅ }
    ∧ (TestVFSPathExistsTearDown openAsVolume clientId outputPath fileToFind ∅).deleted =
        {urnAdd (urnAdd clientId outputPath) fileToFind} := by
  constructor
  · have hneg : ¬ 0 < pyFind outputPath '*' := by omega
    simp [TestVFSPathExistsCheckFlow, vfsOpenAndCheck, if_neg hneg, htype]
  · simp [TestVFSPathExistsTearDown, CleanState]

/-- Witness for the amended C2 at the concrete scenario-A input. -/
theorem claim_C2_scenario_A_witness :
    pyFind "fs/os/proc" '*' ≤ 0
    ∧ typeOfC2 (urnAdd (urnAdd "aff4:/C.1000000000000000" "fs/os/proc") "netstat") = ATy.vfsFile
    ∧ (TestVFSPathExistsCheckFlow typeOfC2 enumOrderC2 reSearchC2 ATy.vfsFile
          "aff4:/C.1000000000000000" "fs/os/proc" "netstat" ∅ =
        { enumerated := false
          opened := some (urnAdd (urnAdd "aff4:/C.1000000000000000" "fs/os/proc") "netstat")
          outcome := CheckOutcome.passed
          deleteUrns := ∅ }
      ∧ (TestVFSPathExistsTearDown openAllDeleted
            "aff4:/C.1000000000000000" "fs/os/proc" "netstat" ∅).deleted =
          {urnAdd (urnAdd "aff4:/C.1000000000000000" "fs/os/proc") "netstat"}) :=
  ⟨by decide, by decide,
    claim_C2_scenario_A typeOfC2 enumOrderC2 reSearchC2 openAllDeleted
      "aff4:/C.1000000000000000" "fs/os/proc" "netstat" (by decide) (by decide)⟩

theorem pyFindAux_none (c : Char) : ∀ (l : List Char) (i : Nat), c ∉ l → pyFindAux c l i = none := by
  intro l
  induction l with
  | nil => intro i _; rfl
  | cons x xs ih =>
    intro i h
    have hx : ¬ x = c := by
      intro he
      subst he
      exact h (List.mem_cons_self x xs)
    simp only [pyFindAux, if_neg hx]
    exact ih (i + 1) (fun hm => h (List.mem_cons_of_mem x hm))

theorem pyFind_head (s : String) (c : Char) (h : s.toList.head? = some c) :
    pyFind s c = 0 := by
  unfold pyFind
  cases hl : s.toList with
  | nil =>
    rw [hl] at h
    exact absurd h (by simp)
  | cons x xs =>
    rw [hl] at h
    have hx : x = c := by simpa using h
    simp [pyFindAux, hx]

theorem pyFind_not_mem (s : String) (c : Char) (h : c ∉ s.toList) : pyFind s c = -1 := by
  unfold pyFind
  rw [pyFindAux_none c s.toList 0 h]

/-- C9: both check routines treat an output path as wildcarded only when the
first `*` occurs at index 1 or later; a path whose very first character is
`*`, or containing no `*` at all, is treated as a literal path (opened
directly under the client id) and no tree enumeration is performed. -/
theorem claim_C9_wildcard_position (typeOf : String → ATy) (enumOrder : String → List String)
    (reSearch : String → String → Bool) (resultType : ATy) (content : String → List Nat)
    (clientId path fileToFind : String) (del : Finset String)
    (h : path.toList.head? = some '*' ∨ '*' ∉ path.toList) :
    (TestVFSPathExistsCheckFlow typeOf enumOrder reSearch resultType
        clientId path fileToFind del).enumerated = false
    ∧ (TestVFSPathExistsCheckFlow typeOf enumOrder reSearch resultType
        clientId path fileToFind del).opened =
        some (urnAdd (urnAdd clientId path) fileToFind)
    ∧ (VFSPathContentExistsCheckFlow typeOf enumOrder reSearch content
        clientId path del).enumerated = false
    ∧ (VFSPathContentExistsCheckFlow typeOf enumOrder reSearch content
        clientId path del).opened = some (urnAdd clientId path) := by
  have hneg : ¬ 0 < pyFind path '*' := by
    rcases h with h | h
    · rw [pyFind_head path '*' h]
      omega
    · rw [pyFind_not_mem path '*' h]
      omega
  refine ⟨?_, ?_, ?_, ?_⟩ <;>
    simp [TestVFSPathExistsCheckFlow, VFSPathContentExistsCheckFlow, vfsOpenAndCheck,
      if_neg hneg]

/-- Witness for C9: a path whose first character is the wildcard is treated
literally by both check routines. -/
theorem claim_C9_wildcard_position_witness :
    (("*tmp/foo").toList.head? = some '*' ∨ '*' ∉ ("*tmp/foo").toList)
    ∧ ((TestVFSPathExistsCheckFlow typeOfC2 enumOrderC2 reSearchC2 ATy.vfsFile
          "aff4:/C.1000000000000000" "*tmp/foo" "netstat" ∅).enumerated = false
      ∧ (TestVFSPathExistsCheckFlow typeOfC2 enumOrderC2 reSearchC2 ATy.vfsFile
          "aff4:/C.1000000000000000" "*tmp/foo" "netstat" ∅).opened =
          some (urnAdd (urnAdd "aff4:/C.1000000000000000" "*tmp/foo") "netstat")
      ∧ (VFSPathContentExistsCheckFlow typeOfC2 enumOrderC2 reSearchC2 (fun _ => [1])
          "aff4:/C.1000000000000000" "*tmp/foo" ∅).enumerated = false
      ∧ (VFSPathContentExistsCheckFlow typeOfC2 enumOrderC2 reSearchC2 (fun _ => [1])
          "aff4:/C.1000000000000000" "*tmp/foo" ∅).opened =
          some (urnAdd "aff4:/C.1000000000000000" "*tmp/foo")) :=
  ⟨by decide,
    claim_C9_wildcard_position typeOfC2 enumOrderC2 reSearchC2 ATy.vfsFile (fun _ => [1])
      "aff4:/C.1000000000000000" "*tmp/foo" "netstat" ∅ (by decide)⟩

/-- Candidate set built by `GetClientTestTargets` before the liveness filter:
explicit client ids (falling back to the `Test.end_to_end_client_ids`
configuration), unioned with the client urns resolved from hostnames
(falling back to `Test.end_to_end_client_hostnames`) when any host is given.
Urns are taken already normalised, `ClientURN` normalisation being
idempotent. -/
def candidateClientIds (clientIds configClientIds : List String)
    (hostnames configHostnames : List String)
    (resolveHostnames : List String → List (List String)) : Finset String :=
  let ids : Finset String :=
    if clientIds.isEmpty then configClientIds.toFinset else clientIds.toFinset
  let hosts : List String := if hostnames.isEmpty then configHostnames else hostnames
  if hosts.isEmpty then ids
  else ids ∪ ((resolveHostnames hosts).foldr (fun l acc => l ++ acc) []).toFinset

/-- Duration of `m` minutes in microseconds, the resolution of
`rdfvalue.RDFDatetime` timestamps. -/
def durationOfMinutes (m : Nat) : Int := (m : Int) * 60 * 1000000

/-- Default `checkin_duration_threshold` argument, the parsed
`rdfvalue.Duration("20m")`. -/
def defaultCheckinDurationThreshold : Int := durationOfMinutes 20

/-- Liveness filter applied to each candidate: a client whose metadata
`MultiOpen` yields (`meta c = some last`) is removed exactly when
`now - last > thresholdMicros`; a client `MultiOpen` skips (`meta c = none`)
is never removed. -/
def keptByLiveness (meta : String → Option Int) (now thresholdMicros : Int)
    (c : String) : Bool :=
  match meta c with
  | none => true
  | some last => decide (¬ (now - last > thresholdMicros))

/-- `GetClientTestTargets`: build the candidate id set, then drop the stale
candidates. -/
def GetClientTestTargets (meta : String → Option Int) (now : Int)
    (clientIds configClientIds hostnames configHostnames : List String)
    (resolveHostnames : List String → List (List String))
    (thresholdMicros : Int) : Finset String :=
  (candidateClientIds clientIds configClientIds hostnames configHostnames
      resolveHostnames).filter
    (fun c => keptByLiveness meta now thresholdMicros c = true)

/-- C5: for every candidate endpoint whose metadata can be opened, the
endpoint is removed from the result exactly when `now - lastCheckin` is
strictly greater than the liveness threshold; an endpoint whose last
check-in sits exactly at the threshold is kept; and the default threshold is
20 minutes. -/
theorem claim_C5_liveness_boundary (meta : String → Option Int) (now : Int)
    (clientIds configClientIds hostnames configHostnames : List String)
    (resolveHostnames : List String → List (List String)) (thresholdMicros : Int)
    (c : String) (last : Int) (hmeta : meta c = some last) :
    (c ∈ GetClientTestTargets meta now clientIds configClientIds hostnames configHostnames
        resolveHostnames thresholdMicros
      ↔ c ∈ candidateClientIds clientIds configClientIds hostnames configHostnames
            resolveHostnames
          ∧ ¬ (now - last > thresholdMicros))
    ∧ (now - last = thresholdMicros →
        (c ∈ GetClientTestTargets meta now clientIds configClientIds hostnames configHostnames
            resolveHostnames thresholdMicros
          ↔ c ∈ candidateClientIds clientIds configClientIds hostnames configHostnames
              resolveHostnames))
    ∧ defaultCheckinDurationThreshold = durationOfMinutes 20 := by
  have key : c ∈ GetClientTestTargets meta now clientIds configClientIds hostnames
      configHostnames resolveHostnames thresholdMicros
      ↔ c ∈ candidateClientIds clientIds configClientIds hostnames configHostnames
          resolveHostnames
        ∧ ¬ (now - last > thresholdMicros) := by
    simp [GetClientTestTargets, Finset.mem_filter, keptByLiveness, hmeta]
  refine ⟨key, ?_, rfl⟩
  intro hb
  rw [key]
  constructor
  · exact fun hc => hc.1
  · intro hc
    exact ⟨hc, by omega⟩

/-- Metadata collaborator for the C5 witness. -/
def metaC5 : String → Option Int := fun c => if c = "aff4:/C.aaaa" then some 1000 else none

/-- Hostname resolver for the C5 witness (no hostnames supplied). -/
def resolveC5 : List String → List (List String) := fun _ => []

/-- Witness for C5 at a concrete input with the check-in exactly at the
threshold boundary. -/
theorem claim_C5_liveness_boundary_witness :
    metaC5 "aff4:/C.aaaa" = some 1000
    ∧ (("aff4:/C.aaaa" ∈ GetClientTestTargets metaC5 1500 ["aff4:/C.aaaa"] [] [] [] resolveC5 500
        ↔ "aff4:/C.aaaa" ∈ candidateClientIds ["aff4:/C.aaaa"] [] [] [] resolveC5
            ∧ ¬ ((1500 : Int) - 1000 > 500))
      ∧ ((1500 : Int) - 1000 = 500 →
          ("aff4:/C.aaaa" ∈ GetClientTestTargets metaC5 1500 ["aff4:/C.aaaa"] [] [] [] resolveC5 500
            ↔ "aff4:/C.aaaa" ∈ candidateClientIds ["aff4:/C.aaaa"] [] [] [] resolveC5))
      ∧ defaultCheckinDurationThreshold = durationOfMinutes 20) :=
  ⟨by decide,
    claim_C5_liveness_boundary metaC5 1500 ["aff4:/C.aaaa"] [] [] [] resolveC5 500
      "aff4:/C.aaaa" 1000 (by decide)⟩

/-- Outcome of `GetGRRBinaryName`: the returned binary name, a
`self.fail(...)` with its message, or an uncaught `KeyError` when both
configuration keys are absent. -/
inductive GBNOutcome where
  | ok (binaryName : String)
  | testFail (msg : String)
  | keyError
deriving DecidableEq

/-- Final branch of `GetGRRBinaryName`: look up `Client.binary_name`, falling
back to `Client.name` on `KeyError`.  Returns the outcome together with the
value of the `self.binary_name` attribute after the call (set to the chosen
value, untouched when `KeyError` escapes). -/
def lookupBinaryName (config : String → Option String) : GBNOutcome × Option String :=
  match config "Client.binary_name" with
  | some v => (GBNOutcome.ok v, some v)
  | none =>
    match config "Client.name" with
    | some v => (GBNOutcome.ok v, some v)
    | none => (GBNOutcome.keyError, none)

/-- `ClientTestBase.GetGRRBinaryName`: `fetchConfig n` is the client's
`GRR_CONFIGURATION` attribute as visible after `n` Interrogate flows have
run (`none` when missing).  Returns the outcome, the `self.binary_name`
attribute afterwards, and the number of Interrogate flows launched.  The
source recurses once with `run_interrogate=False` after launching
Interrogate. -/
def GetGRRBinaryName (fetchConfig : Nat → Option (String → Option String))
    (runInterrogate : Bool) (interrogatesDone : Nat) :
    GBNOutcome × Option String × Nat :=
  match fetchConfig interrogatesDone with
  | some config =>
    let r := lookupBinaryName config
    (r.1, r.2, 0)
  | none =>
    match runInterrogate with
    | true =>
      let r := GetGRRBinaryName fetchConfig false (interrogatesDone + 1)
      (r.1, r.2.1, r.2.2 + 1)
    | false =>
      (GBNOutcome.testFail
        "No valid configuration found, interrogate the client before running this test.",
       none, 0)
termination_by cond runInterrogate 1 0
decreasing_by simp

/-- C7: when the stored configuration is missing, `GetGRRBinaryName` launches
Interrogate exactly once and retries the lookup exactly once; the retry runs
with `run_interrogate=False`, so a still-missing configuration fails the test
without launching Interrogate again — the recursion never goes beyond one
retry. -/
theorem claim_C7_one_shot_interrogate
    (fetchConfig : Nat → Option (String → Option String)) (h0 : fetchConfig 0 = none) :
    (GetGRRBinaryName fetchConfig true 0).2.2 = 1
    ∧ (fetchConfig 1 = none →
        GetGRRBinaryName fetchConfig true 0 =
          (GBNOutcome.testFail
            "No valid configuration found, interrogate the client before running this test.",
           none, 1))
    ∧ (∀ config, fetchConfig 1 = some config →
        GetGRRBinaryName fetchConfig true 0 =
          ((lookupBinaryName config).1, (lookupBinaryName config).2, 1)) := by
  refine ⟨?_, ?_, ?_⟩
  · cases hf : fetchConfig 1 with
    | none => simp [GetGRRBinaryName, h0, hf]
    | some config => simp [GetGRRBinaryName, h0, hf]
  · intro h1
    simp [GetGRRBinaryName, h0, h1]
  · intro config h1
    simp [GetGRRBinaryName, h0, h1]

/-- Configuration fetcher for the C7 witness: always missing. -/
def fetchC7 : Nat → Option (String → Option String) := fun _ => none

/-- Witness for C7 at a concrete input. -/
theorem claim_C7_one_shot_interrogate_witness :
    fetchC7 0 = none
    ∧ ((GetGRRBinaryName fetchC7 true 0).2.2 = 1
      ∧ (fetchC7 1 = none →
          GetGRRBinaryName fetchC7 true 0 =
            (GBNOutcome.testFail
              "No valid configuration found, interrogate the client before running this test.",
             none, 1))
      ∧ (∀ config, fetchC7 1 = some config →
          GetGRRBinaryName fetchC7 true 0 =
            ((lookupBinaryName config).1, (lookupBinaryName config).2, 1))) :=
  ⟨rfl, claim_C7_one_shot_interrogate fetchC7 rfl⟩

/-- C10: when the stored configuration is present, `GetGRRBinaryName` returns
the value of `Client.binary_name`, falling back to `Client.name` when that
key is absent, and records the chosen value in the `binary_name` attribute;
no Interrogate flow is launched. -/
theorem claim_C10_binary_name_fallback
    (fetchConfig : Nat → Option (String → Option String))
    (config : String → Option String) (h0 : fetchConfig 0 = some config) :
    (∀ v, config "Client.binary_name" = some v →
        GetGRRBinaryName fetchConfig true 0 = (GBNOutcome.ok v, some v, 0))
    ∧ (∀ w, config "Client.binary_name" = none → config "Client.name" = some w →
        GetGRRBinaryName fetchConfig true 0 = (GBNOutcome.ok w, some w, 0)) := by
  constructor
  · intro v hv
    simp [GetGRRBinaryName, h0, lookupBinaryName, hv]
  · intro w hb hn
    simp [GetGRRBinaryName, h0, lookupBinaryName, hb, hn]

/-- Configuration for the C10 witness: only `Client.name` is set. -/
def configC10 : String → Option String := fun k => if k = "Client.name" then some "grr" else none

/-- Configuration fetcher for the C10 witness. -/
def fetchC10 : Nat → Option (String → Option String) := fun _ => some configC10

/-- Witness for C10 at a concrete input exercising the fallback key. -/
theorem claim_C10_binary_name_fallback_witness :
    fetchC10 0 = some configC10
    ∧ ((∀ v, configC10 "Client.binary_name" = some v →
          GetGRRBinaryName fetchC10 true 0 = (GBNOutcome.ok v, some v, 0))
      ∧ (∀ w, configC10 "Client.binary_name" = none → configC10 "Client.name" = some w →
          GetGRRBinaryName fetchC10 true 0 = (GBNOutcome.ok w, some w, 0))) :=
  ⟨rfl, claim_C10_binary_name_fallback fetchC10 configC10 rfl⟩
